import Mathlib

/-!
Shallow embedding of the bearer-token validation subsystem of the
payforward backend (src/backend/internal/auth/keycloak.go).

The Go code delegates JWT parsing and temporal-claim validation to
github.com/golang-jwt/jwt/v5; defaults of that library (zero leeway,
expiration and not-before validated when present, issued-at not validated
unless opted in, registered signing methods) are embedded where the
repository's code depends on them.

Modelling conventions:
  - the key cache (a Go map guarded by a RWMutex) is an association list
    with first-match lookup; a map write is a cons to the front, which has
    the same lookup semantics as an in-place overwrite;
  - the single outbound HTTP round trip of refreshPublicKeys is an
    explicit input (FetchResult): either a transport error, or a response
    carrying a status code and the outcome of JSON-decoding its body;
    the Go code never inspects the status code, and the model reflects that;
  - a parsed JWT is a Token record: header algorithm, optional kid header,
    decoded claims, and the public key (if any) under which its signature
    verifies — RSA signature verification is abstracted as equality with
    that key;
  - functions that in Go mutate the receiver return the new cache
    explicitly, together with a count of refreshPublicKeys calls performed,
    so that on-demand-refresh claims can be stated exactly.
-/

namespace Auth

/-- RSA public key material: modulus and exponent as unbounded naturals
(Go stores N as a big.Int and E as an int obtained from a big.Int). -/
structure RSAPublicKey where
  n : Nat
  e : Nat
deriving DecidableEq, Repr

/-- One entry of a JSON Web Key Set response, mirroring the JWK struct. -/
structure JWK where
  kid : String
  kty : String
  alg : String
  use : String
  n : String
  e : String
deriving DecidableEq, Repr

/-- The decoded JWKS response body, mirroring JWKSResponse. -/
structure JWKSResponse where
  keys : List JWK
deriving DecidableEq, Repr

/-- The key cache: map from kid to parsed public key (Go:
map[string]*rsa.PublicKey), modelled as an association list with
first-match lookup. -/
def KeyCache := List (String × RSAPublicKey)

instance : DecidableEq KeyCache := by
  unfold KeyCache
  infer_instance

/-- Association-list read, first binding wins: the observational
semantics of a Go map lookup for this representation. -/
def assocLookup {α : Type} : List (String × α) → String → Option α
  | [], _ => none
  | (k, v) :: rest, key => if key = k then some v else assocLookup rest key

/-- Map read: first binding for the kid, as Go map lookup. -/
def cacheLookup (c : KeyCache) (kid : String) : Option RSAPublicKey :=
  assocLookup c kid

/-- Map write `ka.publicKeys[kid] = pubKey`: a fresh binding shadowing any
older one, observationally an insert-or-overwrite under cacheLookup. -/
def cacheInsert (c : KeyCache) (kid : String) (key : RSAPublicKey) : KeyCache :=
  (kid, key) :: c

/-- Validator state, mirroring the KeycloakAuth struct (the RWMutex is
represented by the functional state-passing itself). -/
structure KeycloakAuth where
  realm : String
  serverURL : String
  clientID : String
  clientSecret : String
  publicKeys : KeyCache

/-- Decoded token claims, mirroring KeycloakClaims: the fields the
validation path and HasRole read. resourceAccess is the per-client role
map (JSON object, hence unique keys; association list with first-match
lookup). -/
structure KeycloakClaims where
  email : String
  sub : String
  iss : String
  aud : List String
  exp : Option Int
  nbf : Option Int
  iat : Option Int
  realmRoles : List String
  resourceAccess : List (String × List String)
deriving DecidableEq, Repr

/-- A structurally well-formed (three-segment, JSON-decodable) JWT after
jwt.ParseWithClaims has split and base64-decoded it: header algorithm,
optional string kid header, claims, and the key under which the RSA
signature verifies (none: verifies under no key). -/
structure Token where
  alg : String
  kid : Option String
  claims : KeycloakClaims
  signedWith : Option RSAPublicKey

/-- Outcome of the HTTP GET to the JWKS endpoint plus the JSON decode of
its body: http.Get error, or a response with its status code and the
decoded body (none when json.Decode fails). -/
inductive FetchResult where
  | netError (msg : String)
  | response (status : Nat) (decoded : Option JWKSResponse)

/-- The JWKS entries a fetch outcome delivers (empty on any failure). -/
def fetchKeys : FetchResult → List JWK
  | FetchResult.response _ (some jwks) => jwks.keys
  | _ => []

/- ---------------------------------------------------------------------
base64url decoding, mirroring Go's base64.RawURLEncoding.DecodeString:
URL-safe alphabet, no padding, length mod 4 = 1 rejected, \r and \n
skipped, non-canonical trailing bits discarded (non-Strict decoder).
--------------------------------------------------------------------- -/

/-- Value of one base64url alphabet character; none for an invalid byte. -/
def b64Val (c : Char) : Option Nat :=
  if 'A' ≤ c ∧ c ≤ 'Z' then some (c.toNat - 65)
  else if 'a' ≤ c ∧ c ≤ 'z' then some (c.toNat - 97 + 26)
  else if '0' ≤ c ∧ c ≤ '9' then some (c.toNat - 48 + 52)
  else if c = '-' then some 62
  else if c = '_' then some 63
  else none

/-- Decode a list of 6-bit values into bytes, 4-value groups producing 3
bytes, a 2- or 3-value tail producing 1 or 2 bytes, a 1-value tail being
a corrupt-input error. -/
def b64Groups : List Nat → Option (List Nat)
  | [] => some []
  | [_] => none
  | [a, b] => some [a * 4 + b / 16]
  | [a, b, c] => some [a * 4 + b / 16, b % 16 * 16 + c / 4]
  | a :: b :: c :: d :: rest =>
      match b64Groups rest with
      | none => none
      | some tail =>
          some ((a * 4 + b / 16) :: (b % 16 * 16 + c / 4) :: (c % 4 * 64 + d) :: tail)

/-- base64url decode of a whole string to bytes (none: corrupt input). -/
def base64URLDecode (s : String) : Option (List Nat) :=
  let chars := s.toList.filter (fun c => c ≠ '\r' ∧ c ≠ '\n')
  let rec vals : List Char → Option (List Nat)
    | [] => some []
    | c :: cs =>
      match b64Val c, vals cs with
      | some v, some vs => some (v :: vs)
      | _, _ => none
  match vals chars with
  | none => none
  | some vs => b64Groups vs

/-- big.Int SetBytes: big-endian bytes to an unbounded natural. -/
def bytesToNat (bs : List Nat) : Nat :=
  bs.foldl (fun acc b => acc * 256 + b) 0

/-- parseRSAPublicKey: base64url-decode the modulus and exponent of a JWK
entry into an RSA public key; error when either decode fails. -/
def parseRSAPublicKey (jwk : JWK) : Except String RSAPublicKey :=
  match base64URLDecode jwk.n with
  | none => Except.error "illegal base64 data"
  | some nBytes =>
    match base64URLDecode jwk.e with
    | none => Except.error "illegal base64 data"
    | some eBytes => Except.ok { n := bytesToNat nBytes, e := bytesToNat eBytes }

/- ---------------------------------------------------------------------
refreshPublicKeys
--------------------------------------------------------------------- -/

/-- One iteration of the installation loop of refreshPublicKeys: install
an RSA signature key under its kid, skipping entries of other types or
uses and entries that fail to parse. -/
def installStep (c : KeyCache) (key : JWK) : KeyCache :=
  if key.kty = "RSA" ∧ key.use = "sig" then
    match parseRSAPublicKey key with
    | Except.ok pubKey => cacheInsert c key.kid pubKey
    | Except.error _ => c
  else c

/-- The whole installation loop over the decoded key set. -/
def installJWKS (c : KeyCache) (keys : List JWK) : KeyCache :=
  keys.foldl installStep c

/-- refreshPublicKeys: fetch the JWKS endpoint, decode the body, and
install every parsing RSA/sig entry. Returns the error outcome and the
cache afterwards. The status code of the response is never consulted. -/
def refreshPublicKeys (c : KeyCache) (fetch : FetchResult) :
    Except String Unit × KeyCache :=
  match fetch with
  | FetchResult.netError msg =>
      (Except.error ("failed to fetch JWKS: " ++ msg), c)
  | FetchResult.response _status none =>
      (Except.error "failed to decode JWKS", c)
  | FetchResult.response _status (some jwks) =>
      (Except.ok (), installJWKS c jwks.keys)

/- ---------------------------------------------------------------------
getPublicKey
--------------------------------------------------------------------- -/

/-- Result of getPublicKey: the key or an error, the cache afterwards,
and how many times refreshPublicKeys ran. -/
structure KeyLookup where
  result : Except String RSAPublicKey
  cache : KeyCache
  refreshCount : Nat

/-- getPublicKey: look the kid up in the cache; on a miss perform one
synchronous refreshPublicKeys (its network outcome is the fetch argument)
and retry the lookup once. -/
def getPublicKey (c : KeyCache) (fetch : FetchResult) (kid : String) : KeyLookup :=
  match cacheLookup c kid with
  | some key => ⟨Except.ok key, c, 0⟩
  | none =>
    match refreshPublicKeys c fetch with
    | (Except.error e, c') =>
        ⟨Except.error ("failed to refresh keys: " ++ e), c', 1⟩
    | (Except.ok _, c') =>
      match cacheLookup c' kid with
      | some key => ⟨Except.ok key, c', 1⟩
      | none => ⟨Except.error ("key with kid " ++ kid ++ " not found"), c', 1⟩

/- ---------------------------------------------------------------------
ValidateToken
--------------------------------------------------------------------- -/

/-- The three registered jwt.SigningMethodRSA instances; the type
assertion token.Method.(*jwt.SigningMethodRSA) succeeds exactly for them
(PS/HS/ES/none methods are distinct Go types). -/
def isRSAAlg (alg : String) : Bool :=
  alg = "RS256" ∨ alg = "RS384" ∨ alg = "RS512"

/-- jwt/v5 default claim validation as configured by this code: zero
leeway, exp and nbf checked when present, iat not checked (WithIssuedAt
is not passed). now is Unix seconds at validation time. -/
def temporalValid (now : Int) (claims : KeycloakClaims) : Bool :=
  (match claims.exp with
   | none => true
   | some e => now < e) &&
  (match claims.nbf with
   | none => true
   | some n => n ≤ now)

/-- The issuer the code compares against: serverURL ++ "/realms/" ++ realm. -/
def expectedIssuer (ka : KeycloakAuth) : String :=
  ka.serverURL ++ "/realms/" ++ ka.realm

/-- validateAudience: some audience entry equals the configured clientID
or the literal "account". -/
def validateAudience (ka : KeycloakAuth) (audience : List String) : Bool :=
  audience.any (fun aud => aud = ka.clientID ∨ aud = "account")

/-- Result of ValidateToken: the claims or an error, the key cache
afterwards, and how many refreshPublicKeys runs happened. -/
structure ValidateResult where
  result : Except String KeycloakClaims
  cache : KeyCache
  refreshCount : Nat

/-- ValidateToken on an already-split token: inside the keyfunc, reject
non-RSA signing methods and missing kid headers, then resolve the key
via getPublicKey; then jwt/v5 verifies the signature and the temporal
claims; finally the code checks issuer and audience. fetch is the
network outcome of the at-most-one on-demand refresh. -/
def ValidateToken (ka : KeycloakAuth) (fetch : FetchResult) (now : Int)
    (t : Token) : ValidateResult :=
  if isRSAAlg t.alg then
    match t.kid with
    | none =>
        ⟨Except.error "failed to parse token: kid not found in token header",
         ka.publicKeys, 0⟩
    | some kid =>
      match getPublicKey ka.publicKeys fetch kid with
      | ⟨Except.error e, c', n⟩ =>
          ⟨Except.error ("failed to parse token: " ++ e), c', n⟩
      | ⟨Except.ok key, c', n⟩ =>
        if t.signedWith = some key then
          if temporalValid now t.claims then
            if t.claims.iss = expectedIssuer ka then
              if validateAudience ka t.claims.aud then
                ⟨Except.ok t.claims, c', n⟩
              else ⟨Except.error "invalid audience", c', n⟩
            else
              ⟨Except.error ("invalid issuer: expected " ++ expectedIssuer ka
                  ++ ", got " ++ t.claims.iss), c', n⟩
          else
            ⟨Except.error "failed to parse token: token has invalid claims",
             c', n⟩
        else
          ⟨Except.error "failed to parse token: token signature is invalid",
           c', n⟩
  else
    ⟨Except.error "failed to parse token: unexpected signing method",
     ka.publicKeys, 0⟩

/- ---------------------------------------------------------------------
ExtractBearerToken
--------------------------------------------------------------------- -/

/-- An inbound request, reduced to the values of its Authorization
header in arrival order (the only part ExtractBearerToken reads). -/
structure Request where
  authorizationValues : List String

/-- http.Header.Get: the first value of the header, "" when absent. -/
def headerGet (r : Request) : String :=
  r.authorizationValues.headD ""

/-- Go strings.Split with the single-character separator " " over a
character list: empty fields are kept, and splitting the empty string
yields one empty field. -/
def splitChars : List Char → List (List Char)
  | [] => [[]]
  | c :: cs =>
    if c = ' ' then [] :: splitChars cs
    else
      match splitChars cs with
      | [] => [[c]]
      | w :: ws => (c :: w) :: ws

/-- strings.Split(authHeader, " "). -/
def splitOnSpace (s : String) : List String :=
  (splitChars s.toList).map (fun w => String.mk w)

/-- ExtractBearerToken: read the (first) Authorization value, error when
empty, split on single spaces, and require exactly the two fields
"Bearer" and the token. -/
def ExtractBearerToken (r : Request) : Except String String :=
  let authHeader := headerGet r
  if authHeader = "" then Except.error "authorization header not found"
  else
    match splitOnSpace authHeader with
    | [scheme, token] =>
        if scheme = "Bearer" then Except.ok token
        else Except.error "invalid authorization header format"
    | _ => Except.error "invalid authorization header format"

/- ---------------------------------------------------------------------
HasRole
--------------------------------------------------------------------- -/

/-- HasRole: membership in the realm-wide role list, then in the
per-client role list under the configured clientID. -/
def HasRole (ka : KeycloakAuth) (claims : KeycloakClaims) (role : String) : Bool :=
  claims.realmRoles.any (fun r => r = role) ||
    match assocLookup claims.resourceAccess ka.clientID with
    | some clientRoles => clientRoles.any (fun r => r = role)
    | none => false

/- ---------------------------------------------------------------------
Concrete sample values used to exercise the definitions.
--------------------------------------------------------------------- -/

/-- A small RSA public key; "AQAB" is the base64url of the bytes 01 00 01. -/
def sampleKey : RSAPublicKey := ⟨65537, 65537⟩

/-- A validator whose cache already holds sampleKey under kid "k1". -/
def sampleKA : KeycloakAuth :=
  ⟨"payforward", "http://keycloak", "payforward-app", "secret",
   [("k1", sampleKey)]⟩

/-- Claims matching sampleKA: correct issuer, audience, fresh timestamps. -/
def sampleClaims : KeycloakClaims :=
  ⟨"user@example.com", "user-123", "http://keycloak/realms/payforward",
   ["payforward-app"], some 3600, some 0, some 0, ["user"],
   [("payforward-app", ["admin"]), ("other-app", ["root"])]⟩

/-- A well-formed RS256 token under kid "k1" signed with sampleKey. -/
def sampleToken : Token := ⟨"RS256", some "k1", sampleClaims, some sampleKey⟩

/-- The same token declaring a symmetric algorithm. -/
def hmacToken : Token := ⟨"HS256", some "k1", sampleClaims, some sampleKey⟩

/-- Claims and token whose issuer is a different realm URL. -/
def badIssuerClaims : KeycloakClaims :=
  { sampleClaims with iss := "http://rogue/realms/payforward" }

def badIssuerToken : Token :=
  ⟨"RS256", some "k1", badIssuerClaims, some sampleKey⟩

/-- Claims and token whose audience names neither the client nor account. -/
def badAudClaims : KeycloakClaims := { sampleClaims with aud := ["other-app"] }

def badAudToken : Token := ⟨"RS256", some "k1", badAudClaims, some sampleKey⟩

/-- A JWKS entry introducing kid "k2" with the material of sampleKey. -/
def sampleJWK : JWK := ⟨"k2", "RSA", "RS256", "sig", "AQAB", "AQAB"⟩

/-- A JWKS entry whose modulus is corrupt base64url. -/
def badJWK : JWK := ⟨"k3", "RSA", "RS256", "sig", "!", "AQAB"⟩

/-- A refresh round trip answering with the rotated key set. -/
def rotatedFetch : FetchResult := FetchResult.response 200 (some ⟨[sampleJWK]⟩)

/-- A refresh round trip failing at the transport layer. -/
def netFail : FetchResult := FetchResult.netError "connection refused"

/-- A token under the freshly rotated kid "k2". -/
def k2Token : Token := ⟨"RS256", some "k2", sampleClaims, some sampleKey⟩

/- ---------------------------------------------------------------------
Helper lemmas.
--------------------------------------------------------------------- -/

/-- A cache hit returns the cached key without any refresh. -/
theorem getPublicKey_hit (c : KeyCache) (fetch : FetchResult) (kid : String)
    (key : RSAPublicKey) (h : cacheLookup c kid = some key) :
    getPublicKey c fetch kid = ⟨Except.ok key, c, 0⟩ := by
  unfold getPublicKey
  rw [h]

/-- On a cache miss, getPublicKey performs exactly one refresh and
retries the lookup once, failing with the kid-not-found error when the
refreshed cache still lacks the kid. -/
theorem getPublicKey_miss (c : KeyCache) (fetch : FetchResult) (kid : String)
    (hmiss : cacheLookup c kid = none) :
    (getPublicKey c fetch kid).refreshCount = 1 ∧
    (getPublicKey c fetch kid).cache = (refreshPublicKeys c fetch).2 ∧
    (∀ e, (refreshPublicKeys c fetch).1 = Except.error e →
        (getPublicKey c fetch kid).result
          = Except.error ("failed to refresh keys: " ++ e)) ∧
    ((refreshPublicKeys c fetch).1 = Except.ok () →
      ∀ k, cacheLookup (refreshPublicKeys c fetch).2 kid = some k →
        (getPublicKey c fetch kid).result = Except.ok k) ∧
    ((refreshPublicKeys c fetch).1 = Except.ok () →
      cacheLookup (refreshPublicKeys c fetch).2 kid = none →
        (getPublicKey c fetch kid).result
          = Except.error ("key with kid " ++ kid ++ " not found")) := by
  rcases hr : refreshPublicKeys c fetch with ⟨res, c'⟩
  unfold getPublicKey
  rw [hmiss, hr]
  cases res with
  | error e => simp
  | ok u =>
    cases u
    cases hk : cacheLookup c' kid with
    | none => simp [hk]
    | some k => simp [hk]

/-- The temporal check passes when the exp and nbf claims hold at now. -/
theorem temporalValid_of (now : Int) (claims : KeycloakClaims)
    (hexp : ∀ e, claims.exp = some e → now < e)
    (hnbf : ∀ n, claims.nbf = some n → n ≤ now) :
    temporalValid now claims = true := by
  unfold temporalValid
  rw [Bool.and_eq_true]
  constructor
  · cases he : claims.exp with
    | none => rfl
    | some e => simpa using hexp e he
  · cases hn : claims.nbf with
    | none => rfl
    | some n => simpa using hnbf n hn

/-- The audience check passes exactly when some audience entry equals
the configured client identifier or the literal "account". -/
theorem validateAudience_iff (ka : KeycloakAuth) (aud : List String) :
    validateAudience ka aud = true ↔
      ∃ a ∈ aud, a = ka.clientID ∨ a = "account" := by
  unfold validateAudience
  rw [List.any_eq_true]
  simp

/-- Inversion: a successful ValidateToken returned exactly the token's
claims, and the algorithm, temporal, issuer and audience checks all
passed. -/
theorem ValidateToken_ok_inv (ka : KeycloakAuth) (fetch : FetchResult)
    (now : Int) (t : Token) (c : KeycloakClaims)
    (h : (ValidateToken ka fetch now t).result = Except.ok c) :
    c = t.claims ∧ isRSAAlg t.alg = true ∧ temporalValid now t.claims = true ∧
      t.claims.iss = expectedIssuer ka ∧
      validateAudience ka t.claims.aud = true := by
  unfold ValidateToken at h
  repeat' split at h
  all_goals simp_all

/- ---------------------------------------------------------------------
Claim theorems.
--------------------------------------------------------------------- -/

/-- C6: a token whose declared algorithm is outside the RSA family is
rejected before any key lookup or signature verification: the result is
the signing-method error, no refresh happens, and the cache is
untouched, regardless of any same-named kid in the cache. -/
theorem ValidateToken_rejects_non_rsa_alg (ka : KeycloakAuth)
    (fetch : FetchResult) (now : Int) (t : Token)
    (halg : isRSAAlg t.alg = false) :
    (ValidateToken ka fetch now t).result
        = Except.error "failed to parse token: unexpected signing method" ∧
      (ValidateToken ka fetch now t).refreshCount = 0 ∧
      (ValidateToken ka fetch now t).cache = ka.publicKeys := by
  unfold ValidateToken
  rw [if_neg]
  · exact ⟨rfl, rfl, rfl⟩
  · simp [halg]

/-- C6 witness: an HS256 token whose kid "k1" is in the cache is
rejected with the signing-method error and without refreshing. -/
theorem ValidateToken_rejects_non_rsa_alg_witness :
    isRSAAlg hmacToken.alg = false ∧
      (ValidateToken sampleKA netFail 0 hmacToken).result
        = Except.error "failed to parse token: unexpected signing method" ∧
      (ValidateToken sampleKA netFail 0 hmacToken).refreshCount = 0 :=
  ⟨by decide,
   (ValidateToken_rejects_non_rsa_alg sampleKA netFail 0 hmacToken (by decide)).1,
   (ValidateToken_rejects_non_rsa_alg sampleKA netFail 0 hmacToken (by decide)).2.1⟩

/-- C7: HasRole is true exactly when the role appears in the realm-wide
role list or in the per-client role list stored under the validator's
configured client identifier; roles under any other client's entry do
not count. -/
theorem HasRole_iff (ka : KeycloakAuth) (claims : KeycloakClaims)
    (role : String) :
    HasRole ka claims role = true ↔
      role ∈ claims.realmRoles ∨
        ∃ rs, assocLookup claims.resourceAccess ka.clientID = some rs ∧
          role ∈ rs := by
  unfold HasRole
  rw [Bool.or_eq_true, List.any_eq_true]
  cases hl : assocLookup claims.resourceAccess ka.clientID with
  | none => simp [hl]
  | some rs => simp [hl, List.any_eq_true]

/-- C5: a token whose issuer differs from serverURL ++ "/realms/" ++
realm never validates, whatever the signature. -/
theorem ValidateToken_wrong_issuer_fails (ka : KeycloakAuth)
    (fetch : FetchResult) (now : Int) (t : Token)
    (hiss : t.claims.iss ≠ ka.serverURL ++ "/realms/" ++ ka.realm) :
    ∀ c, (ValidateToken ka fetch now t).result ≠ Except.ok c := by
  intro c h
  obtain ⟨-, -, -, hiss2, -⟩ := ValidateToken_ok_inv ka fetch now t c h
  exact hiss (hiss2.trans rfl)

/-- C5 witness: a correctly signed token for a rogue issuer fails. -/
theorem ValidateToken_wrong_issuer_fails_witness :
    badIssuerToken.signedWith = some sampleKey ∧
      (ValidateToken sampleKA netFail 0 badIssuerToken).result
        ≠ Except.ok badIssuerClaims :=
  ⟨rfl,
   ValidateToken_wrong_issuer_fails sampleKA netFail 0 badIssuerToken
     (by decide) badIssuerClaims⟩

/-- C4: a token whose audience list contains neither the configured
client identifier nor "account" never validates, and the audience check
passes exactly when some audience entry equals one of the two. -/
theorem ValidateToken_audience_check (ka : KeycloakAuth)
    (fetch : FetchResult) (now : Int) (t : Token)
    (hbad : ∀ a ∈ t.claims.aud, a ≠ ka.clientID ∧ a ≠ "account") :
    (∀ c, (ValidateToken ka fetch now t).result ≠ Except.ok c) ∧
      (∀ aud, validateAudience ka aud = true ↔
        ∃ a ∈ aud, a = ka.clientID ∨ a = "account") := by
  refine ⟨fun c h => ?_, validateAudience_iff ka⟩
  obtain ⟨-, -, -, -, haud⟩ := ValidateToken_ok_inv ka fetch now t c h
  rw [validateAudience_iff] at haud
  obtain ⟨a, ha, hp⟩ := haud
  rcases hp with hp | hp
  · exact (hbad a ha).1 hp
  · exact (hbad a ha).2 hp

/-- C4 witness: a correctly signed token whose audience is only
"other-app" fails to validate. -/
theorem ValidateToken_audience_check_witness :
    badAudToken.signedWith = some sampleKey ∧
      (ValidateToken sampleKA netFail 0 badAudToken).result
        ≠ Except.ok badAudClaims :=
  ⟨rfl,
   (ValidateToken_audience_check sampleKA netFail 0 badAudToken
     (by decide)).1 badAudClaims⟩

/-- C8: a token signed with a cached key, temporally valid, with the
exact expected issuer and an accepted audience entry, validates: the
returned claims are exactly the token's claims (so subject and email
match the token), and no refresh was needed. -/
theorem ValidateToken_success (ka : KeycloakAuth) (fetch : FetchResult)
    (now : Int) (t : Token) (kid : String) (key : RSAPublicKey)
    (halg : isRSAAlg t.alg = true) (hkid : t.kid = some kid)
    (hkey : cacheLookup ka.publicKeys kid = some key)
    (hsig : t.signedWith = some key)
    (hexp : ∀ e, t.claims.exp = some e → now < e)
    (hnbf : ∀ n, t.claims.nbf = some n → n ≤ now)
    (hiss : t.claims.iss = ka.serverURL ++ "/realms/" ++ ka.realm)
    (haud : ∃ a ∈ t.claims.aud, a = ka.clientID ∨ a = "account") :
    (ValidateToken ka fetch now t).result = Except.ok t.claims ∧
      (ValidateToken ka fetch now t).refreshCount = 0 ∧
      (∀ c, (ValidateToken ka fetch now t).result = Except.ok c →
        c.sub = t.claims.sub ∧ c.email = t.claims.email) := by
  have hcascade :
      (ValidateToken ka fetch now t).result = Except.ok t.claims ∧
        (ValidateToken ka fetch now t).refreshCount = 0 := by
    unfold ValidateToken
    simp only [halg, if_true, hkid,
      getPublicKey_hit ka.publicKeys fetch kid key hkey, hsig,
      temporalValid_of now t.claims hexp hnbf,
      (validateAudience_iff ka t.claims.aud).mpr haud]
    rw [if_pos (show t.claims.iss = expectedIssuer ka from hiss)]
    exact ⟨rfl, rfl⟩
  refine ⟨hcascade.1, hcascade.2, fun c hc => ?_⟩
  rw [hcascade.1] at hc
  cases hc
  exact ⟨rfl, rfl⟩

/-- C8 witness: the sample token against the warm sample cache. -/
theorem ValidateToken_success_witness :
    (ValidateToken sampleKA netFail 0 sampleToken).result
        = Except.ok sampleClaims ∧
      (ValidateToken sampleKA netFail 0 sampleToken).refreshCount = 0 :=
  have h := ValidateToken_success sampleKA netFail 0 sampleToken "k1" sampleKey
    rfl rfl rfl rfl
    (fun e he => by
      simp only [sampleToken, sampleClaims] at he
      cases he
      decide)
    (fun n hn => by
      simp only [sampleToken, sampleClaims] at hn
      cases hn
      decide)
    rfl (by decide)
  ⟨h.1, h.2.1⟩

/-- C1: for a well-formed RSA token whose kid is absent from the cache,
ValidateToken performs exactly one synchronous refresh; if the refresh
errors, that error is surfaced; if the refreshed cache now holds the
kid, verification proceeds with the new key and validation can succeed;
if the kid is still missing after the one refresh, validation fails
with the kid-not-found error — still with exactly one refresh. -/
theorem ValidateToken_unknown_kid (ka : KeycloakAuth) (fetch : FetchResult)
    (now : Int) (t : Token) (kid : String)
    (halg : isRSAAlg t.alg = true) (hkid : t.kid = some kid)
    (hmiss : cacheLookup ka.publicKeys kid = none) :
    (ValidateToken ka fetch now t).refreshCount = 1 ∧
    (∀ e, (refreshPublicKeys ka.publicKeys fetch).1 = Except.error e →
      (ValidateToken ka fetch now t).result
        = Except.error ("failed to parse token: "
            ++ ("failed to refresh keys: " ++ e))) ∧
    (∀ k, (refreshPublicKeys ka.publicKeys fetch).1 = Except.ok () →
      cacheLookup (refreshPublicKeys ka.publicKeys fetch).2 kid = some k →
      t.signedWith = some k → temporalValid now t.claims = true →
      t.claims.iss = ka.serverURL ++ "/realms/" ++ ka.realm →
      validateAudience ka t.claims.aud = true →
      (ValidateToken ka fetch now t).result = Except.ok t.claims) ∧
    ((refreshPublicKeys ka.publicKeys fetch).1 = Except.ok () →
      cacheLookup (refreshPublicKeys ka.publicKeys fetch).2 kid = none →
      (ValidateToken ka fetch now t).result
        = Except.error ("failed to parse token: "
            ++ ("key with kid " ++ kid ++ " not found"))) := by
  rcases hr : refreshPublicKeys ka.publicKeys fetch with ⟨res, c'⟩
  cases res with
  | error e0 =>
    refine ⟨?_, ?_, ?_, ?_⟩
    · unfold ValidateToken getPublicKey
      simp only [halg, if_true, hkid, hmiss, hr]
    · intro e he
      replace he : (Except.error e0 : Except String Unit) = Except.error e := he
      cases he
      unfold ValidateToken getPublicKey
      simp only [halg, if_true, hkid, hmiss, hr]
    · intro k hok
      replace hok : (Except.error e0 : Except String Unit) = Except.ok () := hok
      cases hok
    · intro hok
      replace hok : (Except.error e0 : Except String Unit) = Except.ok () := hok
      cases hok
  | ok u =>
    cases u
    refine ⟨?_, ?_, ?_, ?_⟩
    · unfold ValidateToken getPublicKey
      simp only [halg, if_true, hkid, hmiss, hr]
      cases hk : cacheLookup c' kid with
      | none => rfl
      | some k2 =>
        dsimp only
        repeat' split
        all_goals rfl
    · intro e he
      replace he : (Except.ok () : Except String Unit) = Except.error e := he
      cases he
    · intro k _ hk hsig htime hiss haud
      replace hk : cacheLookup c' kid = some k := hk
      unfold ValidateToken getPublicKey
      simp only [halg, if_true, hkid, hmiss, hr, hk]
      rw [if_pos hsig, if_pos htime,
        if_pos (show t.claims.iss = expectedIssuer ka from hiss),
        if_pos haud]
    · intro _ hk
      replace hk : cacheLookup c' kid = none := hk
      unfold ValidateToken getPublicKey
      simp only [halg, if_true, hkid, hmiss, hr, hk]

/-- C1 witness: a token under the freshly rotated kid "k2", absent from
the warm cache, validates after exactly one refresh that introduces the
key; the same lookup against a failing network keeps the count at one. -/
theorem ValidateToken_unknown_kid_witness :
    cacheLookup sampleKA.publicKeys "k2" = none ∧
      (ValidateToken sampleKA rotatedFetch 0 k2Token).refreshCount = 1 ∧
      (ValidateToken sampleKA rotatedFetch 0 k2Token).result
        = Except.ok sampleClaims :=
  have h := ValidateToken_unknown_kid sampleKA rotatedFetch 0 k2Token "k2"
    rfl rfl rfl
  ⟨rfl, h.1, h.2.2.1 sampleKey rfl rfl rfl (by decide) rfl (by decide)⟩

/- ---------------------------------------------------------------------
Cache-growth lemmas for C10 and the per-entry skip lemma for C3.
--------------------------------------------------------------------- -/

/-- Reading an association list through a fresh binding. -/
theorem cacheLookup_insert (c : KeyCache) (kid kid' : String)
    (key : RSAPublicKey) :
    cacheLookup (cacheInsert c kid' key) kid
      = if kid = kid' then some key else cacheLookup c kid := rfl

/-- One installation step never removes a binding. -/
theorem installStep_isSome (c : KeyCache) (j : JWK) (kid : String)
    (h : (cacheLookup c kid).isSome) :
    (cacheLookup (installStep c j) kid).isSome := by
  unfold installStep
  split
  · split
    · rw [cacheLookup_insert]
      split
      · rfl
      · exact h
    · exact h
  · exact h

/-- One installation step leaves bindings for other kids unchanged. -/
theorem installStep_lookup_of_ne (c : KeyCache) (j : JWK) (kid : String)
    (h : j.kid ≠ kid) :
    cacheLookup (installStep c j) kid = cacheLookup c kid := by
  unfold installStep
  split
  · split
    · rw [cacheLookup_insert, if_neg (fun hh => h hh.symm)]
    · rfl
  · rfl

/-- The whole installation loop never removes a binding. -/
theorem installJWKS_isSome (keys : List JWK) (c : KeyCache) (kid : String)
    (h : (cacheLookup c kid).isSome) :
    (cacheLookup (installJWKS c keys) kid).isSome := by
  induction keys generalizing c with
  | nil => exact h
  | cons j ks ih =>
    simp only [installJWKS, List.foldl_cons]
    exact ih (installStep c j) (installStep_isSome c j kid h)

/-- The installation loop leaves kids it never advertises unchanged. -/
theorem installJWKS_lookup_of_ne (keys : List JWK) (c : KeyCache)
    (kid : String) (h : ∀ j ∈ keys, j.kid ≠ kid) :
    cacheLookup (installJWKS c keys) kid = cacheLookup c kid := by
  induction keys generalizing c with
  | nil => rfl
  | cons j ks ih =>
    show cacheLookup (installJWKS (installStep c j) ks) kid = cacheLookup c kid
    rw [ih (installStep c j) (fun x hx => h x (List.mem_cons_of_mem j hx)),
      installStep_lookup_of_ne c j kid (h j (List.mem_cons_self j ks))]

/-- An entry that fails to parse contributes nothing to the refresh. -/
theorem installJWKS_skips_bad (c : KeyCache) (ks1 ks2 : List JWK)
    (bad : JWK) (e : String) (h : parseRSAPublicKey bad = Except.error e) :
    installJWKS c (ks1 ++ bad :: ks2) = installJWKS c (ks1 ++ ks2) := by
  unfold installJWKS
  rw [List.foldl_append, List.foldl_append, List.foldl_cons]
  congr 1
  unfold installStep
  split
  · rw [h]
  · rfl

/- ---------------------------------------------------------------------
Claims C10, C3, C2.
--------------------------------------------------------------------- -/

/-- C10: the cache only grows. A cached kid survives every refresh (an
entry is only ever inserted or overwritten, never deleted); when the
provider stops advertising the kid, the old binding stays untouched, so
getPublicKey keeps answering for it — with no refresh and no change to
the cache — whatever getPublicKey runs for other kids do to the cache. -/
theorem cache_never_deletes (c : KeyCache) (fetch : FetchResult)
    (kid : String) (key : RSAPublicKey)
    (h : cacheLookup c kid = some key) :
    (∃ k, cacheLookup (refreshPublicKeys c fetch).2 kid = some k) ∧
      ((∀ j ∈ fetchKeys fetch, j.kid ≠ kid) →
        cacheLookup (refreshPublicKeys c fetch).2 kid = some key) ∧
      getPublicKey c fetch kid = ⟨Except.ok key, c, 0⟩ ∧
      (∀ kid', ∃ k,
        cacheLookup (getPublicKey c fetch kid').cache kid = some k) := by
  have hgrow : ∃ k, cacheLookup (refreshPublicKeys c fetch).2 kid = some k := by
    cases fetch with
    | netError m => exact ⟨key, h⟩
    | response st decoded =>
      cases decoded with
      | none => exact ⟨key, h⟩
      | some jwks =>
        have := installJWKS_isSome jwks.keys c kid (by rw [h]; rfl)
        rcases Option.isSome_iff_exists.mp this with ⟨k, hk⟩
        exact ⟨k, hk⟩
  refine ⟨hgrow, ?_, getPublicKey_hit c fetch kid key h, ?_⟩
  · intro hne
    cases fetch with
    | netError m => exact h
    | response st decoded =>
      cases decoded with
      | none => exact h
      | some jwks =>
        have : cacheLookup (installJWKS c jwks.keys) kid = cacheLookup c kid :=
          installJWKS_lookup_of_ne jwks.keys c kid hne

        rw [show (refreshPublicKeys c
            (FetchResult.response st (some jwks))).2 = installJWKS c jwks.keys
            from rfl, this, h]
  · intro kid'
    cases hl : cacheLookup c kid' with
    | some k' =>
      rw [getPublicKey_hit c fetch kid' k' hl]
      exact ⟨key, h⟩
    | none =>
      obtain ⟨-, hc2, -, -, -⟩ := getPublicKey_miss c fetch kid' hl
      rw [hc2]
      exact hgrow

/-- C10 witness: with kid "k1" cached and a refresh advertising only
"k2", the "k1" binding survives a getPublicKey miss for "k2". -/
theorem cache_never_deletes_witness :
    cacheLookup
        (getPublicKey sampleKA.publicKeys rotatedFetch "k2").cache "k1"
      = some sampleKey :=
  have h := cache_never_deletes sampleKA.publicKeys rotatedFetch "k1"
    sampleKey rfl
  by
    rcases h.2.2.2 "k2" with ⟨k, hk⟩
    have : k = sampleKey := by
      have heval : cacheLookup
          (getPublicKey sampleKA.publicKeys rotatedFetch "k2").cache "k1"
          = some sampleKey := by decide
      rw [heval] at hk
      cases hk
      rfl
    rw [← this]
    exact hk

/-- C3 amended: refreshPublicKeys errors exactly on a transport failure
or a JSON-decode failure of the body, and then leaves the cache exactly
as it was; the HTTP status code is never consulted, so any response
whose body decodes (even a non-200 one) counts as success; an entry
that fails to parse is skipped without affecting the rest. -/
theorem refreshPublicKeys_amended (c : KeyCache) :
    (∀ m, refreshPublicKeys c (FetchResult.netError m)
        = (Except.error ("failed to fetch JWKS: " ++ m), c)) ∧
      (∀ st, refreshPublicKeys c (FetchResult.response st none)
        = (Except.error "failed to decode JWKS", c)) ∧
      (∀ st jwks,
        (refreshPublicKeys c (FetchResult.response st (some jwks))).1
          = Except.ok ()) ∧
      (∀ st ks1 ks2 bad e, parseRSAPublicKey bad = Except.error e →
        refreshPublicKeys c (FetchResult.response st (some ⟨ks1 ++ bad :: ks2⟩))
          = refreshPublicKeys c (FetchResult.response st (some ⟨ks1 ++ ks2⟩))) := by
  refine ⟨fun m => rfl, fun st => rfl, fun st jwks => rfl,
    fun st ks1 ks2 bad e he => ?_⟩
  show ((Except.ok (), installJWKS c (ks1 ++ bad :: ks2))
      : Except String Unit × KeyCache)
    = (Except.ok (), installJWKS c (ks1 ++ ks2))
  rw [installJWKS_skips_bad c ks1 ks2 bad e he]

/-- C3 witness: a transport failure leaves the warm cache unchanged (so
a previously cached key keeps validating), and a key set containing one
corrupt entry installs exactly what the set without it installs. -/
theorem refreshPublicKeys_amended_witness :
    refreshPublicKeys sampleKA.publicKeys netFail
        = (Except.error "failed to fetch JWKS: connection refused",
           sampleKA.publicKeys) ∧
      parseRSAPublicKey badJWK = Except.error "illegal base64 data" ∧
      refreshPublicKeys [] (FetchResult.response 200 (some ⟨[badJWK, sampleJWK]⟩))
        = refreshPublicKeys [] (FetchResult.response 200 (some ⟨[sampleJWK]⟩)) :=
  ⟨(refreshPublicKeys_amended sampleKA.publicKeys).1 "connection refused",
   rfl,
   (refreshPublicKeys_amended []).2.2.2 200 [] [sampleJWK] badJWK
     "illegal base64 data" rfl⟩

/-- C3 counterexample: an HTTP 500 response whose body nonetheless
decodes as a JSON key set (here the empty one) makes refreshPublicKeys
return success, not the error the claim demands of a non-200 response:
the status code is never consulted. -/
theorem refreshPublicKeys_http500_counterexample :
    (refreshPublicKeys [] (FetchResult.response 500 (some ⟨[]⟩))).1
        = Except.ok ()
      ∧ (500 : Nat) ≠ 200 :=
  ⟨rfl, by decide⟩

/-- C2 amended: ExtractBearerToken reads only the first Authorization
header value (empty when the header is absent): it returns tok exactly
when that value splits on single spaces into the two fields "Bearer"
and tok (case-sensitive scheme, tok possibly empty); additional
Authorization headers are ignored rather than rejected. -/
theorem ExtractBearerToken_amended (r : Request) (tok : String) :
    ExtractBearerToken r = Except.ok tok ↔
      splitOnSpace (headerGet r) = ["Bearer", tok] := by
  unfold ExtractBearerToken
  by_cases h : headerGet r = ""
  · rw [if_pos h, h, show splitOnSpace "" = [""] from rfl]
    constructor
    · intro hc
      cases hc
    · intro hc
      injection hc with h1 h2
      exact absurd h1 (by decide)
  · rw [if_neg h]
    cases hs : splitOnSpace (headerGet r) with
    | nil => simp
    | cons a rest =>
      cases rest with
      | nil => simp
      | cons b rest2 =>
        cases rest2 with
        | nil =>
          by_cases hb : a = "Bearer"
          · subst hb
            simp
          · simp [hb]
        | cons c2 rest3 => simp

/-- C2 counterexample: a request with two Authorization headers — which
the claim requires to be an error — succeeds on the first header. -/
theorem ExtractBearerToken_two_headers_counterexample :
    ExtractBearerToken ⟨["Bearer abc", "Bearer def"]⟩ = Except.ok "abc" ∧
      (Request.mk ["Bearer abc", "Bearer def"]).authorizationValues.length
        ≠ 1 :=
  ⟨rfl, by decide⟩

end Auth
